import Mathlib

/-!
Verification of the recipe-grid HTML renderer (recipe_grid/renderer/html.py)
against its natural-language specification.

The rendering module itself is embedded definition by definition below.  Its
collaborators (the recipe/table data model, the number formatter, the unit
conversion table and the scaled-value-string type) are not part of the
rendered sources; following the specification they are taken as parameters or
modelled from the specification text, each such definition marked by a doc
comment starting with "Modelled from the spec".
-/

namespace RecipeGrid

/-! ## Python numbers

The renderer manipulates Python values of type int, Fraction or float
(`Union[float, int, Fraction]`).  A float is represented here by its exact
rational value; arithmetic on the payload is exact rational arithmetic, which
coincides with Python at every point the theorems below evaluate it (the only
multiplications whose results are inspected are by exact scales equal to 1,
where Python float arithmetic is also exact). -/

inductive PyNum where
  | int (n : Int)
  | frac (q : Rat)
  | float (q : Rat)
deriving DecidableEq

/-- The numeric value of a Python number (floats by their exact value). -/
def PyNum.toRat : PyNum → Rat
  | .int n => (n : Rat)
  | .frac q => q
  | .float q => q

/-- `isinstance(x, float)`. -/
def PyNum.isFloat : PyNum → Bool
  | .float _ => true
  | _ => false

/-- Python `==` between numbers compares numeric values across types. -/
def PyNum.pyEq (a b : PyNum) : Bool := decide (a.toRat = b.toRat)

/-- Exact rational multiplication, written through mkRat (it equals `*` on
Rat, see ratMul_eq below). -/
def ratMul (a b : Rat) : Rat := mkRat (a.num * b.num) (a.den * b.den)

/-- Python `*` between numbers, with the usual type promotion: int*int is an
int, Fraction with int or Fraction is a Fraction, and any product involving a
float is a float. -/
def PyNum.mul : PyNum → PyNum → PyNum
  | .float a, b => .float (ratMul a b.toRat)
  | a, .float b => .float (ratMul a.toRat b)
  | .int a, .int b => .int (a * b)
  | .int a, .frac b => .frac (ratMul (a : Rat) b)
  | .frac a, .int b => .frac (ratMul a (b : Rat))
  | .frac a, .frac b => .frac (ratMul a b)

/-- Decidable equality of Except results, for evaluating the renderer on
concrete inputs. -/
instance {ε α : Type} [DecidableEq ε] [DecidableEq α] :
    DecidableEq (Except ε α) := fun a b =>
  match a, b with
  | .error e1, .error e2 =>
    if h : e1 = e2 then isTrue (by rw [h])
    else isFalse (by intro hh; cases hh; exact h rfl)
  | .ok v1, .ok v2 =>
    if h : v1 = v2 then isTrue (by rw [h])
    else isFalse (by intro hh; cases hh; exact h rfl)
  | .error _, .ok _ => isFalse (by intro hh; cases hh)
  | .ok _, .error _ => isFalse (by intro hh; cases hh)

/-! ## Characters and low-level string helpers

Strings are manipulated through their character lists.  The whitespace and
quote characters are named once here and reused throughout. -/

/-- The space character. -/
def spc : Char := Char.ofNat 32

/-- The newline character. -/
def nlc : Char := Char.ofNat 10

/-- The double-quote character. -/
def dqc : Char := Char.ofNat 34

/-- The single-quote character. -/
def sqc : Char := Char.ofNat 39

/-- A one-space string. -/
def sp : String := String.mk [spc]

/-- A one-newline string. -/
def nl : String := String.mk [nlc]

/-- Python `str.lower()` (the unit names this module lowercases are ASCII). -/
def pyLower (s : String) : String := String.mk (s.data.map Char.toLower)

/-- The whitespace characters stripped by Python `str.strip()` with no
argument: space, tab, newline, CR, vertical tab, form feed. -/
def pySpace (c : Char) : Bool :=
  c = spc || c = Char.ofNat 9 || c = nlc || c = Char.ofNat 13 ||
    c = Char.ofNat 11 || c = Char.ofNat 12

/-- Python `str.rstrip()` with no argument. -/
def pyRstrip (s : String) : String :=
  String.mk ((s.data.reverse.dropWhile pySpace).reverse)

/-- Python `str.strip()` with no argument. -/
def pyStrip (s : String) : String :=
  String.mk (((s.data.dropWhile pySpace).reverse.dropWhile pySpace).reverse)

/-- Python `str.strip("-")`: remove leading and trailing hyphens. -/
def stripHyphens (s : String) : String :=
  String.mk (((s.data.dropWhile (fun c => c = '-')).reverse.dropWhile
    (fun c => c = '-')).reverse)

/-- Python `str.rstrip("_")`: remove trailing underscores. -/
def rstripUnderscores (s : String) : String :=
  String.mk ((s.data.reverse.dropWhile (fun c => c = '_')).reverse)

/-- Python `str.replace(pat, rep)` on character lists for the pattern
lengths this module uses (one or two characters — the star, underscore,
double-underscore and quote patterns): replace every non-overlapping
occurrence of `pat`, scanning left to right.  Empty patterns never occur at
any call site, nor do patterns of three or more characters. -/
def listReplace (pat rep : List Char) : List Char → List Char
  | [] => []
  | c :: cs =>
    match pat with
    | [] => c :: cs
    | [p] =>
      if c = p then rep ++ listReplace pat rep cs
      else c :: listReplace pat rep cs
    | [p1, p2] =>
      match cs with
      | [] => [c]
      | c2 :: cs2 =>
        if c = p1 ∧ c2 = p2 then rep ++ listReplace pat rep cs2
        else c :: listReplace pat rep (c2 :: cs2)
    | _ :: _ :: _ :: _ => c :: cs

/-- Python `str.replace(pat, rep)`. -/
def pyReplace (s pat rep : String) : String :=
  String.mk (listReplace pat.data rep.data s.data)

/-- Python `html.escape` escaping of one character (quote=True, the default):
`&`, `<`, `>`, `"` and the single quote become entities. -/
def escapeChar (c : Char) : List Char :=
  if c = '&' then "&amp;".data
  else if c = '<' then "&lt;".data
  else if c = '>' then "&gt;".data
  else if c = dqc then "&quot;".data
  else if c = sqc then "&#x27;".data
  else [c]

/-- Python `html.escape(s)` (quote=True).  The sequential `str.replace` calls
of the library implementation are equivalent to this character-wise map, since
`&` is replaced first and no inserted entity contains a later pattern. -/
def htmlEscape (s : String) : String := String.mk (s.data.flatMap escapeChar)

/-- `xml.sax.saxutils.quoteattr` escaping of one character: `&`, `<`, `>` and
(via its default extra entities) newline, CR and tab become entities. -/
def attrEscapeChar (c : Char) : List Char :=
  if c = '&' then "&amp;".data
  else if c = '<' then "&lt;".data
  else if c = '>' then "&gt;".data
  else if c = nlc then "&#10;".data
  else if c = Char.ofNat 13 then "&#13;".data
  else if c = Char.ofNat 9 then "&#9;".data
  else [c]

/-- A one-character double-quote string. -/
def dqs : String := String.mk [dqc]

/-- A one-character single-quote string. -/
def sqs : String := String.mk [sqc]

/-- `xml.sax.saxutils.quoteattr`: escape the value and wrap it in quotes,
preferring double quotes and falling back as the library does when the value
itself contains quote characters. -/
def quoteattr (v : String) : String :=
  let d := String.mk (v.data.flatMap attrEscapeChar)
  if d.data.contains dqc then
    if d.data.contains sqc then dqs ++ pyReplace d dqs "&quot;" ++ dqs
    else sqs ++ d ++ sqs
  else dqs ++ d ++ dqs

/-- `str.splitlines(keepends=True)` restricted to newline separators, the only
line breaks this module produces. -/
def splitLinesAux : List Char → List Char → List String
  | [], acc => if acc.isEmpty then [] else [String.mk acc.reverse]
  | c :: rest, acc =>
    if c = nlc then String.mk (acc.reverse ++ [c]) :: splitLinesAux rest []
    else splitLinesAux rest (c :: acc)

/-- Split a string into lines, each keeping its trailing newline. -/
def splitLines (s : String) : List String := splitLinesAux s.data []

/-- `textwrap.indent(s, pre)` with the default predicate: prefix every line
that contains non-whitespace. -/
def pyIndent (pre : String) (s : String) : String :=
  String.join ((splitLines s).map
    (fun line => if pyStrip line = "" then line else pre ++ line))

/-! ## The t() tag helper (html.py lines 34-65) -/

/-- The attribute string of `t`: names have trailing underscores stripped and
double underscores replaced by hyphens, values are attribute-quoted, and the
pairs are joined by single spaces in order. -/
def attrsStr (attrs : List (String × String)) : String :=
  String.intercalate sp (attrs.map
    (fun nv => pyReplace (rstripUnderscores nv.1) "__" "-" ++ "=" ++ quoteattr nv.2))

/-- Whether a string contains a newline (`"\n" in body`). -/
def containsNl (s : String) : Bool := s.data.contains nlc

/-- The `t` HTML tag helper from html.py: a self-closing tag when there is no
body, otherwise a balanced tag; multi-line bodies are re-indented by two
spaces and surrounded by newlines. -/
def t (tag : String) (body : Option String) (attrs : List (String × String)) : String :=
  match body with
  | none => "<" ++ tag ++ sp ++ attrsStr attrs ++ "/>"
  | some body0 =>
    let body1 :=
      if containsNl body0 then nl ++ pyRstrip (pyIndent "  " body0) ++ nl else body0
    "<" ++ tag ++ pyRstrip (sp ++ attrsStr attrs) ++ ">" ++ body1 ++ "</" ++ tag ++ ">"

/-! ## The recipe data model

Modelled from the spec: recipe.py and scaled_value_string.py are not among
the rendered sources; the record shapes below follow spec section 3 and the
fields html.py reads. -/

/-- Modelled from the spec: a segment of a Scaled Text (ScaledValueString):
either a literal text run or a numeric placeholder. -/
inductive SVSItem where
  | str (s : String)
  | num (n : PyNum)
deriving DecidableEq

/-- Modelled from the spec: a Scaled Text is an ordered segment sequence. -/
structure SVS where
  items : List SVSItem
deriving DecidableEq

/-- Modelled from the spec: ScaledValueString.render iterates the segments
strictly in order, applying the injected number formatter to numeric segments
and the injected string formatter to literal segments, concatenating the
results with no separator. -/
def SVS.render (s : SVS) (formatNumber : PyNum → String)
    (formatString : String → String) : String :=
  String.join (s.items.map (fun item =>
    match item with
    | .str txt => formatString txt
    | .num n => formatNumber n))

/-- Modelled from the spec: a Quantity (value, optional case-insensitive
unit, trailing preposition text, separator between number and unit). -/
structure Quantity where
  value : PyNum
  unit : Option String
  preposition : String
  value_unit_spacing : String
deriving DecidableEq

/-- Modelled from the spec: a Proportion (optional value — absent meaning
"remainder" —, a percentage display flag, the remainder wording used only
when the value is absent, and a trailing preposition). -/
structure Proportion where
  value : Option PyNum
  percentage : Bool
  remainder_wording : String
  preposition : String
deriving DecidableEq

/-- Modelled from the spec: a SubRecipe node has an ordered list of at least
one output name. -/
structure SubRecipe where
  output_names : List SVS
deriving DecidableEq

/-- The amount of a Reference: a Quantity or a Proportion.  The closed
variant makes the NotImplementedError branch of render_reference
unrepresentable, as the spec's data model prescribes. -/
inductive Amount where
  | qty (q : Quantity)
  | prop (p : Proportion)
deriving DecidableEq

/-- Modelled from the spec: a Reference node consumes a specific output of a
target SubRecipe in a specific measure. -/
structure Reference where
  sub_recipe : SubRecipe
  output_index : Nat
  amount : Amount
deriving DecidableEq

/-- Modelled from the spec: an Ingredient node (optional quantity plus a
description). -/
structure Ingredient where
  quantity : Option Quantity
  description : SVS
deriving DecidableEq

/-- Modelled from the spec: a Step node (a description). -/
structure Step where
  description : SVS
deriving DecidableEq

/-- The closed set of recipe-tree node kinds a Cell can hold. -/
inductive RecipeTreeNode where
  | ingredient (i : Ingredient)
  | ref (r : Reference)
  | step (s : Step)
  | subRecipe (s : SubRecipe)
deriving DecidableEq

/-- Modelled from the spec: the per-edge border styles of a grid cell, a
small fixed enumeration with a "normal" default (table.py is not among the
rendered sources). -/
inductive BorderType where
  | normal
  | thick
  | sub_recipe
deriving DecidableEq

/-- The Python enum member name of a border style (`border_type.name`). -/
def BorderType.pyName : BorderType → String
  | .normal => "normal"
  | .thick => "thick"
  | .sub_recipe => "sub_recipe"

/-- Modelled from the spec: a span-origin grid cell with its value, row and
column spans and four border styles. -/
structure Cell where
  value : RecipeTreeNode
  rows : Nat
  columns : Nat
  border_left : BorderType
  border_right : BorderType
  border_top : BorderType
  border_bottom : BorderType
deriving DecidableEq

/-- Modelled from the spec: a grid slot is either a span-origin cell or a
span-continuation placeholder owned by an earlier origin cell (the
ExtendedCell instances of table.py). -/
inductive TableSlot where
  | cell (c : Cell)
  | extended
deriving DecidableEq

/-- Modelled from the spec: a grid is rows of cell slots. -/
structure Table where
  cells : List (List TableSlot)
deriving DecidableEq

/-- The external collaborators html.py imports, taken as parameters: the
number formatter recipe_grid.number_formatting.format_number, Python str()
on numbers (used through str() of a ScaledValueString), and the conversion
lookup recipe_grid.units.UNIT_SYSTEM.iter_conversions_from, whose KeyError
for an unknown unit is modelled as none. -/
structure RenderCtx where
  format_number : PyNum → String
  numToStr : PyNum → String
  conversions : String → Option (List (PyNum × String))

/-- Modelled from the spec: Python str() of a ScaledValueString is the plain
name text — literal segments verbatim, numeric segments through str(). -/
def SVS.toStr (ctx : RenderCtx) (s : SVS) : String :=
  String.join (s.items.map (fun item =>
    match item with
    | .str txt => txt
    | .num n => ctx.numToStr n))

/-! ## render_number (html.py lines 68-79) -/

/-- The fraction-slash entity emitted between numerator and denominator. -/
def frasl : String := "&frasl;"

/-- The fullmatch of html.py's fraction pattern, the regular expression with
an optional digits-then-space group, a digits group, a slash and a digits
group.  Returns the three groups (the first includes its trailing space, as
in the Python groups). -/
def parseFraction (s : String) : Option (String × String × String) :=
  let cs := s.data
  let p1 := cs.takeWhile Char.isDigit
  let r1 := cs.dropWhile Char.isDigit
  match r1 with
  | [] => none
  | c :: r2 =>
    if c = spc then
      if p1.isEmpty then none
      else
        let p2 := r2.takeWhile Char.isDigit
        let r3 := r2.dropWhile Char.isDigit
        match r3 with
        | [] => none
        | c2 :: r4 =>
          if c2 = '/' then
            let p3 := r4.takeWhile Char.isDigit
            let r5 := r4.dropWhile Char.isDigit
            if p2.isEmpty || p3.isEmpty || !r5.isEmpty then none
            else some (String.mk (p1 ++ [spc]), String.mk p2, String.mk p3)
          else none
    else if c = '/' then
      if p1.isEmpty then none
      else
        let p3 := r2.takeWhile Char.isDigit
        let r5 := r2.dropWhile Char.isDigit
        if p3.isEmpty || !r5.isEmpty then none
        else some ("", String.mk p1, String.mk p3)
    else none

/-- render_number from html.py, factored over the externally formatted
string: a string matching the fraction pattern becomes integer part,
superscripted numerator, fraction slash and subscripted denominator; any
other string is returned unchanged. -/
def renderNumberString (s : String) : String :=
  match parseFraction s with
  | some igd =>
    igd.1 ++ t "sup" (some igd.2.1) [] ++ frasl ++ t "sub" (some igd.2.2) []
  | none => s

/-- render_number from html.py (the composition with format_number). -/
def render_number (ctx : RenderCtx) (number : PyNum) : String :=
  renderNumberString (ctx.format_number number)

/-! ## render_quantity (html.py lines 82-141) -/

/-- Python lexicographic string comparison (code-point order) on character
lists: the `le` underlying the tuple comparison of the sort key. -/
def charListLe : List Char → List Char → Bool
  | [], _ => true
  | _ :: _, [] => false
  | a :: l, b :: m =>
    if a.toNat < b.toNat then true
    else if a.toNat = b.toNat then charListLe l m
    else false

/-- The sort key of render_quantity's conversion ordering:
`(scale != 1, isinstance(scale, float), name)`. -/
def convKey (sn : PyNum × String) : Bool × Bool × List Char :=
  (!(sn.1.pyEq (PyNum.int 1)), sn.1.isFloat, sn.2.data)

/-- Python tuple `<=` on a (bool, bool, str) key: lexicographic, False before
True, strings in code-point order. -/
def keyLe : Bool × Bool × List Char → Bool × Bool × List Char → Bool
  | (a1, a2, a3), (b1, b2, b3) =>
    (!a1 && b1) || (a1 == b1 && ((!a2 && b2) || (a2 == b2 && charListLe a3 b3)))

/-- The comparison the sorted() call of render_quantity orders by. -/
def convLe (x y : PyNum × String) : Bool := keyLe (convKey x) (convKey y)

/-- `sorted(..., key=...)`: a stable sort by the key. -/
def sortConversions (pairs : List (PyNum × String)) : List (PyNum × String) :=
  pairs.mergeSort convLe

/-- The alternative_forms list render_quantity computes for a quantity with a
unit: the conversions of the lowercased unit sorted by the key, each scale
applied to the value, with the sanity assertion on the first entry and the
replacement of the first entry by the native (value, unit) pair.  A failed
lookup (KeyError) is the caught fallback to the single native form; the
error results model the uncaught IndexError / AssertionError. -/
def quantityAlternativeForms (conversions : String → Option (List (PyNum × String)))
    (value : PyNum) (unit : String) : Except String (List (PyNum × String)) :=
  match conversions (pyLower unit) with
  | none => .ok [(value, unit)]
  | some pairs =>
    match (sortConversions pairs).map (fun sn => (value.mul sn.1, sn.2)) with
    | [] => .error "IndexError"
    | f0 :: rest =>
      if f0.1.pyEq value then .ok ((value, unit) :: rest)
      else .error "AssertionError"

/-- One rendered alternative form: number, escaped spacing, escaped unit. -/
def quantityFormString (ctx : RenderCtx) (spacing : String) (vu : PyNum × String) : String :=
  render_number ctx vu.1 ++ htmlEscape spacing ++ htmlEscape vu.2

/-- render_quantity from html.py.  The `all_forms[0]` accesses are modelled
with headD; they are only reached with a non-empty list (the ok results of
quantityAlternativeForms are never empty). -/
def render_quantity (ctx : RenderCtx) (quantity : Quantity) : Except String String :=
  match quantity.unit with
  | none =>
    .ok (t "span" (some (render_number ctx quantity.value))
      [("class_", "rg-quantity-unitless rg-scaled-value")]
      ++ htmlEscape quantity.preposition)
  | some unit => do
    let alternative_forms ←
      quantityAlternativeForms ctx.conversions quantity.value unit
    let all_forms :=
      alternative_forms.map (quantityFormString ctx quantity.value_unit_spacing)
    if all_forms.length = 1 then
      pure (t "span" (some (all_forms.headD ""))
        [("class_", "rg-quantity-without-conversions rg-scaled-value")]
        ++ htmlEscape quantity.preposition)
    else
      pure (t "span"
        (some (all_forms.headD "" ++
          t "ul" (some (String.intercalate nl
              ((all_forms.drop 1).map (fun form => t "li" (some form) []))))
            [("class_", "rg-quantity-conversions")]))
        [("class_", "rg-quantity-with-conversions rg-scaled-value"), ("tabindex", "0")]
        ++ htmlEscape quantity.preposition)

/-! ## render_proportion and the scaled-text / ingredient renderers
(html.py lines 144-180) -/

/-- The literal `*` pattern replaced in the escaped preposition. -/
def star : String := "*"

/-- The multiplication glyph substituted for `*`. -/
def times : String := "&times;"

/-- render_proportion from html.py: the remainder case renders wording plus
preposition escaped; the value case renders the (possibly percentage-scaled)
number and the escaped preposition with `*` replaced by the glyph after
escaping. -/
def render_proportion (ctx : RenderCtx) (proportion : Proportion) : String :=
  match proportion.value with
  | none =>
    t "span"
      (some (htmlEscape (proportion.remainder_wording ++ proportion.preposition)))
      [("class_", "rg-proportion-remainder")]
  | some v =>
    t "span"
      (some (render_number ctx
          (if proportion.percentage then v.mul (PyNum.int 100) else v)
        ++ pyReplace (htmlEscape proportion.preposition) star times))
      [("class_", "rg-proportion")]

/-- render_scaled_value_string from html.py. -/
def render_scaled_value_string (ctx : RenderCtx) (s : SVS) : String :=
  s.render
    (fun number => t "span" (some (render_number ctx number))
      [("class_", "rg-scaled-value")])
    htmlEscape

/-- render_ingredient from html.py. -/
def render_ingredient (ctx : RenderCtx) (ingredient : Ingredient) :
    Except String String := do
  let quantity ←
    match ingredient.quantity with
    | some q => do
      let s ← render_quantity ctx q
      pure (s ++ sp)
    | none => pure ""
  pure (quantity ++ render_scaled_value_string ctx ingredient.description)

/-! ## Anchor ids and references (html.py lines 183-213) -/

/-- Whether a character is in the preserved class `[a-zA-Z0-9._-]` of the
sanitizing substitution. -/
def idChar (c : Char) : Bool :=
  ('a' ≤ c && c ≤ 'z') || ('A' ≤ c && c ≤ 'Z') || ('0' ≤ c && c ≤ '9') ||
    c = '.' || c = '_' || c = '-'

/-- `re.sub` of the single-character class `[^a-zA-Z0-9._-]` with a hyphen:
every character outside the class is replaced, character by character. -/
def sanitizeName (name : String) : String :=
  String.mk (name.data.map (fun c => if idChar c then c else '-'))

/-- generate_subrecipe_output_id from html.py: the caller-supplied prefix
concatenated with the sanitized, hyphen-trimmed output name.  The Python
IndexError for an out-of-range output index is modelled as none. -/
def generate_subrecipe_output_id (ctx : RenderCtx) (sub_recipe : SubRecipe)
    (output_index : Nat) (pre : String) : Option String :=
  (sub_recipe.output_names[output_index]?).map
    (fun nm => pre ++ stripHyphens (sanitizeName (nm.toStr ctx)))

/-- Python `x != 1.0` where `x` is an optional number: None is unequal to
every number, and numbers compare by value across types. -/
def pyOptNe (x : Option PyNum) (y : PyNum) : Bool :=
  match x with
  | none => true
  | some v => !(v.pyEq y)

/-- render_reference from html.py: the amount markup (with its trailing
space), omitted entirely when the amount is a Proportion whose value equals
1.0, followed by the rendered target output name, wrapped in a link to the
target's anchor. -/
def render_reference (ctx : RenderCtx) (reference : Reference) (pre : String) :
    Except String String := do
  let amount ←
    match reference.amount with
    | .qty q => do
      let s ← render_quantity ctx q
      pure (s ++ sp)
    | .prop p =>
      if pyOptNe p.value (PyNum.float 1) then pure (render_proportion ctx p ++ sp)
      else pure ""
  match reference.sub_recipe.output_names[reference.output_index]?,
      generate_subrecipe_output_id ctx reference.sub_recipe reference.output_index pre with
  | some nm, some anchor =>
    pure (t "a" (some (amount ++ render_scaled_value_string ctx nm))
      [("href", "#" ++ anchor)])
  | _, _ => .error "IndexError"

/-! ## Steps, sub-recipe headers and outputs (html.py lines 216-236) -/

/-- render_step from html.py. -/
def render_step (ctx : RenderCtx) (step : Step) : String :=
  render_scaled_value_string ctx step.description

/-- render_sub_recipe_header from html.py (output_names is non-empty by the
data-model invariant; the headD default is never used). -/
def render_sub_recipe_header (ctx : RenderCtx) (sub_recipe : SubRecipe) : String :=
  render_scaled_value_string ctx (sub_recipe.output_names.headD ⟨[]⟩)

/-- render_sub_recipe_outputs from html.py: one list entry per output, each
carrying its own anchor id (the enumerate indices are always in range, so
the getD default is never used). -/
def render_sub_recipe_outputs (ctx : RenderCtx) (sub_recipe : SubRecipe)
    (pre : String) : String :=
  t "ul"
    (some (String.intercalate nl
      (((List.range sub_recipe.output_names.length).zip sub_recipe.output_names).map
        (fun inm => t "li" (some (render_scaled_value_string ctx inm.2))
          [("id", (generate_subrecipe_output_id ctx sub_recipe inm.1 pre).getD "")]))))
    [("class_", "rg-sub-recipe-output-list")]

/-! ## render_cell and render_table (html.py lines 239-300) -/

/-- The span attributes of a cell: colspan when the column span is not 1,
then rowspan when the row span is not 1, in the insertion order of the
Python dict. -/
def cellSpans (cell : Cell) : List (String × String) :=
  (if cell.columns ≠ 1 then [("colspan", toString cell.columns)] else [])
    ++ (if cell.rows ≠ 1 then [("rowspan", toString cell.rows)] else [])

/-- The four border edges of a cell, in the iteration order of render_cell. -/
def edgeBorders (cell : Cell) : List (String × BorderType) :=
  [("left", cell.border_left), ("right", cell.border_right),
    ("top", cell.border_top), ("bottom", cell.border_bottom)]

/-- The border class emitted for an edge with a given style. -/
def borderClassFor (edge : String) (bt : BorderType) : String :=
  "rg-border-" ++ edge ++ "-" ++ pyReplace bt.pyName "_" "-"

/-- The border classes of a cell: one class per edge whose style differs from
the normal default, in edge order. -/
def borderClasses (cell : Cell) : List String :=
  (edgeBorders cell).filterMap (fun eb =>
    if eb.2 ≠ BorderType.normal then some (borderClassFor eb.1 eb.2) else none)

/-- The semantic class and rendered body of a cell value: the closed mapping
of render_cell's isinstance dispatch. -/
def cellClassAndBody (ctx : RenderCtx) (cell : Cell) (pre : String) :
    Except String (String × String) :=
  match cell.value with
  | .ingredient i => do
    let b ← render_ingredient ctx i
    pure ("rg-ingredient", b)
  | .ref r => do
    let b ← render_reference ctx r pre
    pure ("rg-reference", b)
  | .step s => pure ("rg-step", render_step ctx s)
  | .subRecipe s =>
    if s.output_names.length = 1 then
      pure ("rg-sub-recipe-header", render_sub_recipe_header ctx s)
    else
      pure ("rg-sub-recipe-outputs", render_sub_recipe_outputs ctx s pre)

/-- render_cell from html.py. -/
def render_cell (ctx : RenderCtx) (cell : Cell) (pre : String) :
    Except String String := do
  let cb ← cellClassAndBody ctx cell pre
  pure (t "td" (some cb.2)
    ([("class_", String.intercalate sp (cb.1 :: borderClasses cell))]
      ++ cellSpans cell))

/-- Whether a grid slot is a span-origin cell (`isinstance(cell, Cell)`). -/
def isCellSlot : TableSlot → Bool
  | .cell _ => true
  | .extended => false

/-- The span-origin cells of a row, in column order: the filtered
comprehension of render_table. -/
def rowCells (row : List TableSlot) : List Cell :=
  row.filterMap (fun slot =>
    match slot with
    | .cell c => some c
    | .extended => none)

/-- The rendered cell markups of one row: exactly the span-origin cells, in
column order. -/
def renderRow (ctx : RenderCtx) (pre : String) (row : List TableSlot) :
    Except String (List String) :=
  (rowCells row).mapM (fun c => render_cell ctx c pre)

/-- render_table from html.py: rows in order, each row the newline-joined
markup of its span-origin cells, wrapped in tr and table tags, with the
fixed structural class and the optional caller-supplied id attribute. -/
def render_table (ctx : RenderCtx) (table : Table) (tableId : Option String)
    (pre : String) : Except String String := do
  let rows ← table.cells.mapM (fun row_cells => do
    let cells ← renderRow ctx pre row_cells
    pure (t "tr" (some (String.intercalate nl cells)) []))
  pure (t "table" (some (String.intercalate nl rows))
    ([("class_", "rg-table")] ++
      (match tableId with
        | some i => [("id", i)]
        | none => [])))

/-! ## Spec-side definitions and concrete fixtures -/

/-- Modelled from the spec: the characters a canonical numeric display
string from the external formatter can contain — digits, the space of a
mixed number, a decimal point, a fraction slash and a sign. -/
def numericDisplayChar (c : Char) : Bool :=
  c.isDigit || c = spc || c = '.' || c = '/' || c = '-'

/-- Modelled from the spec: whether a string is a canonical numeric display
string as produced by the external number formatter. -/
def numericDisplayString (s : String) : Bool := s.data.all numericDisplayChar

/-- The conversion pairs of the spec's cup example: cup scale 1, tbsp scale
16 (exact), ml scale 236.588 (approximate float). -/
def cupPairs : List (PyNum × String) :=
  [(PyNum.int 1, "cup"), (PyNum.int 16, "tbsp"),
    (PyNum.float (mkRat 236588 1000), "ml")]

/-- A conversion table knowing only the unit "cup", as in the spec's cup
example. -/
def cupConversions : String → Option (List (PyNum × String)) :=
  fun u => if u = "cup" then some cupPairs else none

/-- A conversion table exhibiting a second exact scale-1 conversion (a unit
alias): identity for "u", the alias "z" at scale 1, and "a" at scale 2. -/
def aliasPairs : List (PyNum × String) :=
  [(PyNum.int 1, "u"), (PyNum.int 1, "z"), (PyNum.int 2, "a")]

/-- The conversion lookup for the alias table. -/
def aliasConversions : String → Option (List (PyNum × String)) :=
  fun u => if u = "u" then some aliasPairs else none

/-- A conversion table that knows no unit at all. -/
def emptyConversions : String → Option (List (PyNum × String)) := fun _ => none

/-- A concrete render context over the cup conversion table, with a
formatter producing the display strings of the cup example. -/
def ctxCup : RenderCtx where
  format_number := fun n =>
    if n.pyEq (PyNum.int 1) then "1"
    else if n.pyEq (PyNum.int 16) then "16"
    else "236.588"
  numToStr := fun _ => "1"
  conversions := cupConversions

/-- A concrete render context whose conversion table knows no units. -/
def ctxNone : RenderCtx where
  format_number := fun _ => "1"
  numToStr := fun _ => "1"
  conversions := emptyConversions

/-- The quantity of the cup example: one cup, spaced by one space, with no
preposition. -/
def cupQuantity : Quantity where
  value := PyNum.int 1
  unit := some "cup"
  preposition := ""
  value_unit_spacing := sp

/-- A quantity in a unit unknown to every table. -/
def unknownUnitQuantity : Quantity where
  value := PyNum.int 2
  unit := some "splodge"
  preposition := " of "
  value_unit_spacing := sp

/-- A one-segment output name. -/
def sauceName : SVS := ⟨[SVSItem.str "sauce"]⟩

/-- A sub-recipe with the single output "sauce". -/
def sauceSub : SubRecipe := ⟨[sauceName]⟩

/-- A full-share proportion: value exactly 1. -/
def fullShare : Proportion where
  value := some (PyNum.float 1)
  percentage := false
  remainder_wording := "remainder"
  preposition := " of "

/-- A half-share proportion: value 0.5. -/
def halfShare : Proportion where
  value := some (PyNum.float (mkRat 1 2))
  percentage := false
  remainder_wording := "remainder"
  preposition := " of "

/-- A remainder proportion: absent value. -/
def remainderShare : Proportion where
  value := none
  percentage := false
  remainder_wording := "remainder"
  preposition := " of "

/-- A reference consuming the full share of the sauce output. -/
def refFull : Reference := ⟨sauceSub, 0, Amount.prop fullShare⟩

/-- A reference consuming half of the sauce output. -/
def refHalf : Reference := ⟨sauceSub, 0, Amount.prop halfShare⟩

/-- A reference consuming the remainder of the sauce output. -/
def refRemainder : Reference := ⟨sauceSub, 0, Amount.prop remainderShare⟩

/-- The sub-recipe of the spec's anchor example, with the single output name
"Whisked Eggs!". -/
def whiskedSub : SubRecipe := ⟨[⟨[SVSItem.str "Whisked Eggs!"]⟩]⟩

/-- A proportion with a present value and a starred preposition, for the
glyph-substitution example. -/
def starredShare : Proportion where
  value := some (PyNum.frac (mkRat 1 2))
  percentage := true
  remainder_wording := "remainder"
  preposition := "* weight"

/-- A minimal step cell spanning two rows, with one non-normal border. -/
def stepCell : Cell where
  value := RecipeTreeNode.step ⟨⟨[]⟩⟩
  rows := 2
  columns := 1
  border_left := BorderType.normal
  border_right := BorderType.thick
  border_top := BorderType.normal
  border_bottom := BorderType.normal

/-- A single-row-span, single-column-span step cell with default borders. -/
def plainCell : Cell where
  value := RecipeTreeNode.step ⟨⟨[]⟩⟩
  rows := 1
  columns := 1
  border_left := BorderType.normal
  border_right := BorderType.normal
  border_top := BorderType.normal
  border_bottom := BorderType.normal

/-- A row holding two span-origin cells separated by a span-continuation
placeholder. -/
def mixedRow : List TableSlot :=
  [TableSlot.cell stepCell, TableSlot.extended, TableSlot.cell plainCell]

/-- A table with the mixed row and a row of placeholders only. -/
def mixedTable : Table := ⟨[mixedRow, [TableSlot.extended]]⟩

/-! ## Helper lemmas -/

theorem ratMul_eq (a b : Rat) : ratMul a b = a * b := by
  unfold ratMul
  rw [Rat.mkRat_eq_div]
  push_cast
  rw [← div_mul_div_comm, Rat.num_div_den, Rat.num_div_den]

theorem PyNum.toRat_mul (a b : PyNum) : (a.mul b).toRat = a.toRat * b.toRat := by
  cases a <;> cases b <;> simp [PyNum.mul, PyNum.toRat, ratMul_eq]

/-- Multiplying by an exact (non-float) scale equal to 1 gives a result that
compares equal to the original value (exact in Python as well, since the
scale is an int or Fraction equal to 1). -/
theorem PyNum.mul_exact_one (v s : PyNum) (hf : s.isFloat = false)
    (h1 : s.toRat = 1) : (v.mul s).pyEq v = true := by
  simp [PyNum.pyEq, PyNum.toRat_mul, h1]

theorem String.mk_append (l m : List Char) :
    String.mk l ++ String.mk m = String.mk (l ++ m) := by
  apply String.ext
  simp [String.data_append]

/-- A tag rendered by `t` is never the empty string. -/
theorem t_ne_empty (tag : String) (body : Option String)
    (attrs : List (String × String)) : t tag body attrs ≠ "" := by
  intro h
  have h2 := congrArg String.data h
  cases body <;> simp [t, String.data_append] at h2

theorem charListLe_cons (a b : Char) (l m : List Char) :
    charListLe (a :: l) (b :: m) =
      (decide (a.toNat < b.toNat) || (decide (a.toNat = b.toNat) && charListLe l m)) := by
  simp only [charListLe]
  by_cases h1 : a.toNat < b.toNat <;> by_cases h2 : a.toNat = b.toNat <;> simp [h1, h2]

theorem charListLe_trans : ∀ (l m n : List Char), charListLe l m = true →
    charListLe m n = true → charListLe l n = true
  | [], _, _, _, _ => rfl
  | _ :: _, [], _, h1, _ => by simp [charListLe] at h1
  | _ :: _, _ :: _, [], _, h2 => by simp [charListLe] at h2
  | a :: l, b :: m, c :: n, h1, h2 => by
    rw [charListLe_cons] at h1 h2 ⊢
    simp only [Bool.or_eq_true, Bool.and_eq_true, decide_eq_true_eq] at h1 h2 ⊢
    rcases h1 with h1 | ⟨h1e, h1r⟩ <;> rcases h2 with h2 | ⟨h2e, h2r⟩
    · exact Or.inl (by omega)
    · exact Or.inl (by omega)
    · exact Or.inl (by omega)
    · exact Or.inr ⟨by omega, charListLe_trans l m n h1r h2r⟩

theorem charListLe_total : ∀ (l m : List Char),
    (charListLe l m || charListLe m l) = true
  | [], _ => by simp [charListLe]
  | _ :: _, [] => by simp [charListLe]
  | a :: l, b :: m => by
    rw [charListLe_cons, charListLe_cons]
    rcases Nat.lt_trichotomy a.toNat b.toNat with h | h | h
    · simp [h]
    · have ih := charListLe_total l m
      have hlt : ¬ a.toNat < b.toNat := by omega
      have hlt2 : ¬ b.toNat < a.toNat := by omega
      simp only [h, hlt, hlt2, decide_eq_true_eq, decide_eq_false_iff_not,
        not_false_eq_true]
      simpa using ih
    · simp [h, Nat.lt_asymm h, (by omega : ¬ a.toNat = b.toNat)]

theorem keyLe_trans (x y z : Bool × Bool × List Char) (h1 : keyLe x y = true)
    (h2 : keyLe y z = true) : keyLe x z = true := by
  obtain ⟨x1, x2, x3⟩ := x
  obtain ⟨y1, y2, y3⟩ := y
  obtain ⟨z1, z2, z3⟩ := z
  cases x1 <;> cases y1 <;> cases z1 <;> cases x2 <;> cases y2 <;> cases z2 <;>
    simp_all [keyLe] <;>
    exact charListLe_trans x3 y3 z3 h1 h2

theorem keyLe_total (x y : Bool × Bool × List Char) :
    (keyLe x y || keyLe y x) = true := by
  obtain ⟨x1, x2, x3⟩ := x
  obtain ⟨y1, y2, y3⟩ := y
  cases x1 <;> cases y1 <;> cases x2 <;> cases y2 <;> simp_all [keyLe] <;>
    simpa using charListLe_total x3 y3

theorem convLe_trans (x y z : PyNum × String) (h1 : convLe x y = true)
    (h2 : convLe y z = true) : convLe x z = true :=
  keyLe_trans _ _ _ h1 h2

theorem convLe_total (x y : PyNum × String) : (convLe x y || convLe y x) = true :=
  keyLe_total _ _

/-- The sorted conversion list is a permutation of the lookup result. -/
theorem sortConversions_perm (pairs : List (PyNum × String)) :
    (sortConversions pairs).Perm pairs :=
  List.mergeSort_perm pairs convLe

/-- The sorted conversion list is ordered by the Python sort key. -/
theorem sortConversions_sorted (pairs : List (PyNum × String)) :
    (sortConversions pairs).Pairwise (fun a b => convLe a b = true) :=
  List.sorted_mergeSort (fun a b c => convLe_trans a b c)
    (fun a b => convLe_total a b) pairs

/-- A character that is none of the five escaped ones is left alone. -/
theorem escapeChar_eq_self (c : Char) (h1 : c ≠ '&') (h2 : c ≠ '<')
    (h3 : c ≠ '>') (h4 : c ≠ dqc) (h5 : c ≠ sqc) : escapeChar c = [c] := by
  simp [escapeChar, h1, h2, h3, h4, h5]

/-- Characters of numeric display strings are unaffected by escaping. -/
theorem escapeChar_numeric (c : Char) (h : numericDisplayChar c = true) :
    escapeChar c = [c] := by
  apply escapeChar_eq_self <;> (rintro rfl; revert h; decide)

theorem flatMap_escapeChar_numeric : ∀ (l : List Char),
    l.all numericDisplayChar = true → l.flatMap escapeChar = l
  | [], _ => rfl
  | c :: cs, h => by
    simp only [List.all_cons, Bool.and_eq_true] at h
    simp [List.flatMap_cons, escapeChar_numeric c h.1,
      flatMap_escapeChar_numeric cs h.2]

/-- Escaping a numeric display string is the identity. -/
theorem htmlEscape_numeric (s : String) (h : numericDisplayString s = true) :
    htmlEscape s = s := by
  apply String.ext
  exact flatMap_escapeChar_numeric s.data h

/-- Replacement of a single-character pattern is a character-wise map. -/
theorem listReplace_single (p : Char) (rep : List Char) : ∀ (l : List Char),
    listReplace [p] rep l = l.flatMap (fun c => if c = p then rep else [c])
  | [] => by simp [listReplace]
  | c :: cs => by
    rw [listReplace]
    by_cases h : p = c
    · subst h
      simp [listReplace_single p rep cs]
    · have hne : ¬ c = p := fun hc => h hc.symm
      simp [hne, listReplace_single p rep cs]

/-- One escaped character, then star substitution: the entities contain no
star, and a bare character is substituted exactly when it is the star. -/
theorem escapeChar_then_star (c : Char) :
    (escapeChar c).flatMap (fun d => if d = '*' then times.data else [d]) =
      if c = '*' then times.data else escapeChar c := by
  by_cases h1 : c = '&'
  · subst h1; decide
  · by_cases h2 : c = '<'
    · subst h2; decide
    · by_cases h3 : c = '>'
      · subst h3; decide
      · by_cases h4 : c = dqc
        · subst h4; decide
        · by_cases h5 : c = sqc
          · subst h5; decide
          · rw [escapeChar_eq_self c h1 h2 h3 h4 h5]
            by_cases h6 : c = '*' <;> simp [h6]

/-- Substituting the multiplication glyph after escaping treats the original
preposition character-wise: every literal star becomes the glyph and every
other character is escaped unchanged — escaping never alters the marker. -/
theorem replaceStar_after_escape (s : String) :
    pyReplace (htmlEscape s) star times =
      String.mk (s.data.flatMap
        (fun c => if c = '*' then times.data else escapeChar c)) := by
  apply String.ext
  show listReplace star.data times.data (s.data.flatMap escapeChar) = _
  have hstar : star.data = ['*'] := rfl
  rw [hstar, listReplace_single '*' times.data, List.flatMap_assoc]
  congr 1
  funext c
  exact escapeChar_then_star c

/-- The head of a dropWhile never satisfies the dropped predicate. -/
theorem head?_dropWhile_not (p : α → Bool) : ∀ (l : List α) (a : α),
    (l.dropWhile p).head? = some a → p a = false
  | [], a, h => by simp [List.dropWhile] at h
  | b :: m, a, h => by
    rw [List.dropWhile_cons] at h
    by_cases hb : p b = true
    · simp only [hb, if_true] at h
      exact head?_dropWhile_not p m a h
    · simp only [Bool.not_eq_true] at hb
      simp [hb] at h
      subst h
      exact hb

/-- A non-empty dropWhile keeps the last element. -/
theorem getLast?_dropWhile (p : α → Bool) : ∀ (l : List α),
    l.dropWhile p ≠ [] → (l.dropWhile p).getLast? = l.getLast?
  | [], h => by simp [List.dropWhile] at h
  | b :: m, h => by
    rw [List.dropWhile_cons]
    by_cases hb : p b = true
    · rw [List.dropWhile_cons, if_pos hb] at h
      rw [if_pos hb, getLast?_dropWhile p m h]
      match m, h with
      | c :: m2, _ => rw [List.getLast?_cons_cons]
      | [], h2 => simp [List.dropWhile] at h2
    · rw [if_neg hb]

/-- The hyphen-trimmed string neither starts nor ends with a hyphen. -/
theorem stripHyphens_trimmed (s : String) :
    (stripHyphens s).data.head? ≠ some '-' ∧
      (stripHyphens s).data.getLast? ≠ some '-' := by
  unfold stripHyphens
  set inner := s.data.dropWhile (fun c => c = '-') with hinner
  constructor
  · show (inner.reverse.dropWhile (fun c => c = '-')).reverse.head? ≠ some '-'
    rw [List.head?_reverse]
    intro h
    by_cases hne : inner.reverse.dropWhile (fun c => c = '-') = []
    · rw [hne] at h
      simp at h
    · rw [getLast?_dropWhile _ _ hne, List.getLast?_reverse] at h
      have := head?_dropWhile_not (fun c => c = '-') s.data '-' (hinner ▸ h)
      simp at this
  · show (inner.reverse.dropWhile (fun c => c = '-')).reverse.getLast? ≠ some '-'
    rw [List.getLast?_reverse]
    intro h
    have := head?_dropWhile_not (fun c => c = '-') inner.reverse '-' h
    simp at this

/-- A successful Except-mapM produces exactly one result per input. -/
theorem mapM_except_length {α β : Type} (f : α → Except String β) :
    ∀ (l : List α) (ss : List β), l.mapM f = Except.ok ss → ss.length = l.length
  | [], ss, h => by
    simp only [List.mapM_nil] at h
    cases h
    rfl
  | a :: l, ss, h => by
    rw [List.mapM_cons] at h
    cases hfa : f a with
    | error e =>
      rw [hfa] at h
      simp [Bind.bind, Except.bind] at h
    | ok b =>
      rw [hfa] at h
      cases hfl : l.mapM f with
      | error e =>
        rw [hfl] at h
        simp [Bind.bind, Except.bind, Pure.pure] at h
      | ok bs =>
        rw [hfl] at h
        simp only [Bind.bind, Except.bind, Pure.pure, Except.pure] at h
        cases h
        simp [mapM_except_length f l bs hfl]

/-- Span-continuation placeholders contribute nothing to the origin cells of
a row. -/
theorem rowCells_filter (row : List TableSlot) :
    rowCells (row.filter isCellSlot) = rowCells row := by
  induction row with
  | nil => rfl
  | cons slot rest ih =>
    cases slot <;> simp [rowCells, isCellSlot, List.filter_cons,
      List.filterMap_cons] <;> simpa [rowCells] using ih

/-- The number of origin cells of a row is its origin-slot count. -/
theorem rowCells_length (row : List TableSlot) :
    (rowCells row).length = row.countP isCellSlot := by
  induction row with
  | nil => rfl
  | cons slot rest ih =>
    cases slot <;>
      simp [rowCells, isCellSlot, List.filterMap_cons, List.countP_cons] <;>
      simpa [rowCells] using ih

/-- A list with isEmpty false is not nil. -/
theorem ne_nil_of_isEmpty_false {α : Type} {l : List α} (h : l.isEmpty = false) :
    l ≠ [] := by
  intro hh
  subst hh
  simp at h

/-- A doubly negated emptiness test: the list is empty. -/
theorem eq_nil_of_not_isEmpty_false {α : Type} {l : List α}
    (h : (!l.isEmpty) = false) : l = [] := by
  cases hx : l.isEmpty
  · rw [hx] at h
    simp at h
  · exact List.isEmpty_iff.mp hx

/-- A successful fraction parse decomposes its input exactly as the grammar
of the pattern says: the whole string is the integer group, the numerator, a
slash and the denominator; numerator and denominator are non-empty digit
runs, and the integer group is empty or a non-empty digit run followed by
one space. -/
theorem parseFraction_sound (s i n d : String)
    (h : parseFraction s = some (i, n, d)) :
    s = i ++ n ++ "/" ++ d ∧ n ≠ "" ∧ d ≠ "" ∧
      n.data.all Char.isDigit = true ∧ d.data.all Char.isDigit = true ∧
      (i = "" ∨ (i.data.getLast? = some spc ∧ i.data.dropLast ≠ [] ∧
        (i.data.dropLast).all Char.isDigit = true)) := by
  have hemp : ("" : String).data = [] := rfl
  cases hr1 : s.data.dropWhile Char.isDigit with
  | nil => simp [parseFraction, hr1] at h
  | cons c r2 =>
    simp only [parseFraction, hr1] at h
    have hslash : ("/" : String) = String.mk ['/'] := rfl
    by_cases hc : c = spc
    · rw [if_pos hc] at h
      by_cases hp1 : (s.data.takeWhile Char.isDigit).isEmpty = true
      · simp [hp1] at h
      · rw [if_neg hp1] at h
        have hp1f : (s.data.takeWhile Char.isDigit).isEmpty = false := by
          simpa using hp1
        cases hr3 : r2.dropWhile Char.isDigit with
        | nil => simp [hr3] at h
        | cons c2 r4 =>
          simp only [hr3] at h
          by_cases hc2 : c2 = '/'
          · rw [if_pos hc2] at h
            split at h
            next hcond => exact Option.noConfusion h
            next hcond =>
              have hb : ((r2.takeWhile Char.isDigit).isEmpty ||
                  (r4.takeWhile Char.isDigit).isEmpty ||
                  !(r4.dropWhile Char.isDigit).isEmpty) = false :=
                Bool.eq_false_iff.mpr hcond
              have hg1 : (r2.takeWhile Char.isDigit).isEmpty = false := by
                cases hx : (r2.takeWhile Char.isDigit).isEmpty
                · rfl
                · rw [hx] at hb
                  simp at hb
              have hg2 : (r4.takeWhile Char.isDigit).isEmpty = false := by
                cases hx : (r4.takeWhile Char.isDigit).isEmpty
                · rfl
                · rw [hx] at hb
                  simp at hb
              have hr5 : r4.dropWhile Char.isDigit = [] := by
                cases hx : (r4.dropWhile Char.isDigit).isEmpty
                · rw [hx] at hb
                  simp at hb
                · exact List.isEmpty_iff.mp hx
              simp only [Option.some.injEq, Prod.mk.injEq] at h
              obtain ⟨hi, hn, hd⟩ := h
              subst hi
              subst hn
              subst hd
              have e1 : s.data = s.data.takeWhile Char.isDigit ++ (c :: r2) := by
                conv_lhs =>
                  rw [← List.takeWhile_append_dropWhile Char.isDigit s.data]
                rw [hr1]
              have e2 : r2 = r2.takeWhile Char.isDigit ++ (c2 :: r4) := by
                conv_lhs =>
                  rw [← List.takeWhile_append_dropWhile Char.isDigit r2]
                rw [hr3]
              have e4 : r4 = r4.takeWhile Char.isDigit := by
                conv_lhs =>
                  rw [← List.takeWhile_append_dropWhile Char.isDigit r4]
                rw [hr5, List.append_nil]
              refine ⟨?_, ?_, ?_, List.all_takeWhile, List.all_takeWhile,
                Or.inr ⟨?_, ?_, ?_⟩⟩
              · apply String.ext
                rw [hslash, String.mk_append, String.mk_append,
                  String.mk_append]
                show s.data = _
                conv_lhs => rw [e1]
                rw [hc]
                conv_lhs => rw [e2]
                rw [hc2]
                conv_lhs => rw [e4]
                simp [List.append_assoc]
              · intro hne
                apply ne_nil_of_isEmpty_false hg1
                have := congrArg String.data hne
                rw [hemp] at this
                exact this
              · intro hne
                apply ne_nil_of_isEmpty_false hg2
                have := congrArg String.data hne
                rw [hemp] at this
                exact this
              · show ((s.data.takeWhile Char.isDigit ++ [spc])).getLast? = some spc
                exact List.getLast?_concat _
              · show ((s.data.takeWhile Char.isDigit ++ [spc])).dropLast ≠ []
                rw [List.dropLast_concat]
                exact ne_nil_of_isEmpty_false hp1f
              · show ((s.data.takeWhile Char.isDigit ++ [spc])).dropLast.all
                  Char.isDigit = true
                rw [List.dropLast_concat]
                exact List.all_takeWhile
          · simp [hc2] at h
    · rw [if_neg hc] at h
      by_cases hcs : c = '/'
      · rw [if_pos hcs] at h
        by_cases hp1 : (s.data.takeWhile Char.isDigit).isEmpty = true
        · simp [hp1] at h
        · rw [if_neg hp1] at h
          have hp1f : (s.data.takeWhile Char.isDigit).isEmpty = false := by
            simpa using hp1
          split at h
          next hcond => exact Option.noConfusion h
          next hcond =>
            have hb : ((r2.takeWhile Char.isDigit).isEmpty ||
                !(r2.dropWhile Char.isDigit).isEmpty) = false :=
              Bool.eq_false_iff.mpr hcond
            have hg1 : (r2.takeWhile Char.isDigit).isEmpty = false := by
              cases hx : (r2.takeWhile Char.isDigit).isEmpty
              · rfl
              · rw [hx] at hb
                simp at hb
            have hr5 : r2.dropWhile Char.isDigit = [] := by
              cases hx : (r2.dropWhile Char.isDigit).isEmpty
              · rw [hx] at hb
                simp at hb
              · exact List.isEmpty_iff.mp hx
            simp only [Option.some.injEq, Prod.mk.injEq] at h
            obtain ⟨hi, hn, hd⟩ := h
            subst hi
            subst hn
            subst hd
            have e1 : s.data = s.data.takeWhile Char.isDigit ++ (c :: r2) := by
              conv_lhs =>
                rw [← List.takeWhile_append_dropWhile Char.isDigit s.data]
              rw [hr1]
            have e2 : r2 = r2.takeWhile Char.isDigit := by
              conv_lhs =>
                rw [← List.takeWhile_append_dropWhile Char.isDigit r2]
              rw [hr5, List.append_nil]
            refine ⟨?_, ?_, ?_, List.all_takeWhile, List.all_takeWhile,
              Or.inl rfl⟩
            · apply String.ext
              rw [hslash, String.mk_append, String.mk_append, String.mk_append]
              show s.data = _
              conv_lhs => rw [e1]
              rw [hcs]
              conv_lhs => rw [e2]
              simp [List.append_assoc]
            · intro hne
              apply ne_nil_of_isEmpty_false hp1f
              have := congrArg String.data hne
              rw [hemp] at this
              exact this
            · intro hne
              apply ne_nil_of_isEmpty_false hg1
              have := congrArg String.data hne
              rw [hemp] at this
              exact this
      · simp [hcs] at h

/-! ## Claim theorems -/

/-- C2: for every string produced by the external number formatter, a string
matching the optional-integer mixed-fraction grammar renders as the integer
group verbatim followed by the numerator wrapped as a superscript element,
the fraction-slash glyph, and the denominator wrapped as a subscript
element; a successful parse decomposes the string exactly per that grammar;
and every non-matching formatter string is emitted unchanged, which equals
its markup-escaped form since escaping is the identity on numeric display
strings. -/
theorem render_number_fraction_grammar (s : String)
    (hs : numericDisplayString s = true) :
    (∀ i n d, parseFraction s = some (i, n, d) →
      renderNumberString s =
        i ++ t "sup" (some n) [] ++ frasl ++ t "sub" (some d) [] ∧
        s = i ++ n ++ "/" ++ d ∧ n ≠ "" ∧ d ≠ "" ∧
        n.data.all Char.isDigit = true ∧ d.data.all Char.isDigit = true ∧
        (i = "" ∨ (i.data.getLast? = some spc ∧ i.data.dropLast ≠ [] ∧
          (i.data.dropLast).all Char.isDigit = true))) ∧
    (parseFraction s = none →
      renderNumberString s = s ∧ renderNumberString s = htmlEscape s) := by
  constructor
  · intro i n d hp
    refine ⟨?_, parseFraction_sound s i n d hp⟩
    simp [renderNumberString, hp]
  · intro hp
    have h1 : renderNumberString s = s := by
      simp [renderNumberString, hp]
    exact ⟨h1, by rw [h1, htmlEscape_numeric s hs]⟩

/-- Witness for C2: the spec's mixed number "2 1/4" renders as "2 " followed
by superscript "1", the glyph, and subscript "4"; the non-matching "3.5" is
returned untouched. -/
theorem render_number_fraction_grammar_witness :
    (renderNumberString "2 1/4" =
      "2 " ++ t "sup" (some "1") [] ++ frasl ++ t "sub" (some "4") []) ∧
    renderNumberString "3.5" = "3.5" :=
  ⟨((render_number_fraction_grammar "2 1/4" (by decide)).1 "2 " "1" "4"
      (by decide)).1,
    ((render_number_fraction_grammar "3.5" (by decide)).2 (by decide)).1⟩

/-- C4: the generated anchor id is the caller-supplied prefix concatenated
with the sanitized output name; sanitization replaces every character
outside the preserved class by a hyphen, character by character, and the
hyphen trimming applies to the sanitized name only (the prefix is
concatenated unmodified), the trimmed name neither starting nor ending with
a hyphen; the result is a pure function of its inputs, and on the spec's
"Whisked Eggs!" example yields sub-recipe-Whisked-Eggs. -/
theorem generate_output_id_spec (ctx : RenderCtx) (sub : SubRecipe) (i : Nat)
    (pre : String) (nm : SVS) (h : sub.output_names[i]? = some nm) :
    generate_subrecipe_output_id ctx sub i pre =
      some (pre ++ stripHyphens (sanitizeName (nm.toStr ctx))) ∧
    (∀ s : String, (sanitizeName s).data =
      s.data.map (fun c => if idChar c then c else '-')) ∧
    (∀ s : String, (stripHyphens s).data.head? ≠ some '-' ∧
      (stripHyphens s).data.getLast? ≠ some '-') ∧
    generate_subrecipe_output_id ctxCup whiskedSub 0 "sub-recipe-" =
      some "sub-recipe-Whisked-Eggs" := by
  refine ⟨?_, fun s => rfl, stripHyphens_trimmed, by decide⟩
  simp [generate_subrecipe_output_id, h]

/-- Witness for C4: the theorem applied to the "Whisked Eggs!" sub-recipe at
output index 0 with the default prefix. -/
theorem generate_output_id_spec_witness :
    generate_subrecipe_output_id ctxCup whiskedSub 0 "sub-recipe-" =
      some ("sub-recipe-" ++
        stripHyphens (sanitizeName ((⟨[SVSItem.str "Whisked Eggs!"]⟩ : SVS).toStr
          ctxCup))) :=
  (generate_output_id_spec ctxCup whiskedSub 0 "sub-recipe-"
    ⟨[SVSItem.str "Whisked Eggs!"]⟩ (by decide)).1

/-- C5: with a present value, render_proportion displays value*100 when the
percentage flag is set and the value otherwise, and appends the preposition
escaped for markup with the star substitution performed on the escaped
string; that post-escape substitution acts character-wise on the original
preposition — every literal star becomes the multiplication glyph and every
other character is escaped unchanged, so escaping never alters the marker
before the substitution. -/
theorem render_proportion_value_spec (ctx : RenderCtx) (p : Proportion)
    (v : PyNum) (h : p.value = some v) :
    render_proportion ctx p =
      t "span" (some (render_number ctx
          (if p.percentage then v.mul (PyNum.int 100) else v)
        ++ pyReplace (htmlEscape p.preposition) star times))
        [("class_", "rg-proportion")] ∧
    (∀ s : String, pyReplace (htmlEscape s) star times =
      String.mk (s.data.flatMap
        (fun c => if c = '*' then times.data else escapeChar c))) := by
  refine ⟨?_, replaceStar_after_escape⟩
  simp [render_proportion, h]

/-- Witness for C5: the theorem applied to a percentage proportion of value
one half with a starred preposition. -/
theorem render_proportion_value_spec_witness :
    render_proportion ctxCup starredShare =
      t "span" (some (render_number ctxCup
          (if starredShare.percentage then
            (PyNum.frac (mkRat 1 2)).mul (PyNum.int 100)
          else PyNum.frac (mkRat 1 2))
        ++ pyReplace (htmlEscape starredShare.preposition) star times))
        [("class_", "rg-proportion")] :=
  (render_proportion_value_spec ctxCup starredShare (PyNum.frac (mkRat 1 2))
    (by decide)).1

/-- C3: a Reference whose amount is a Proportion with value exactly 1 (the
full share) renders as a bare link containing only the rendered target
output name — no amount markup, no separating space; a Reference whose
amount is a Proportion with any other present value renders non-empty
amount markup followed by one separating space before the name. -/
theorem render_reference_full_share (ctx : RenderCtx) (r : Reference)
    (p : Proportion) (v : PyNum) (nm : SVS) (pre : String)
    (ha : r.amount = Amount.prop p) (hv : p.value = some v)
    (hn : r.sub_recipe.output_names[r.output_index]? = some nm) :
    (v.toRat = 1 →
      render_reference ctx r pre = Except.ok
        (t "a" (some (render_scaled_value_string ctx nm))
          [("href", "#" ++ (pre ++ stripHyphens (sanitizeName (nm.toStr ctx))))])) ∧
    (v.toRat ≠ 1 →
      render_reference ctx r pre = Except.ok
        (t "a" (some (render_proportion ctx p ++ sp ++
            render_scaled_value_string ctx nm))
          [("href", "#" ++ (pre ++ stripHyphens (sanitizeName (nm.toStr ctx))))]) ∧
      render_proportion ctx p ≠ "") := by
  constructor
  · intro h1
    have hne : pyOptNe p.value (PyNum.float 1) = false := by
      rw [hv]
      show (!(v.pyEq (PyNum.float 1))) = false
      have hq : (PyNum.float (1 : Rat)).toRat = (1 : Rat) := rfl
      simp [PyNum.pyEq, hq, h1]
    simp [render_reference, ha, hne, generate_subrecipe_output_id, hn,
      Bind.bind, Except.bind, Pure.pure, Except.pure]
  · intro h1
    have hne : pyOptNe p.value (PyNum.float 1) = true := by
      rw [hv]
      show (!(v.pyEq (PyNum.float 1))) = true
      have hq : (PyNum.float (1 : Rat)).toRat = (1 : Rat) := rfl
      simp [PyNum.pyEq, hq, h1]
    have h2 : render_proportion ctx p =
        t "span" (some (render_number ctx
            (if p.percentage then v.mul (PyNum.int 100) else v)
          ++ pyReplace (htmlEscape p.preposition) star times))
          [("class_", "rg-proportion")] := by
      simp [render_proportion, hv]
    refine ⟨?_, ?_⟩
    · simp [render_reference, ha, hne, generate_subrecipe_output_id, hn,
        Bind.bind, Except.bind, Pure.pure, Except.pure]
    · rw [h2]
      exact t_ne_empty _ _ _

/-- Witness for C3: the full-share reference to the sauce output renders as
a bare link around the rendered name. -/
theorem render_reference_full_share_witness :
    render_reference ctxCup refFull "sub-recipe-" = Except.ok
      (t "a" (some (render_scaled_value_string ctxCup sauceName))
        [("href", "#" ++ ("sub-recipe-" ++
          stripHyphens (sanitizeName (sauceName.toStr ctxCup))))]) :=
  (render_reference_full_share ctxCup refFull fullShare (PyNum.float 1)
    sauceName "sub-recipe-" rfl rfl rfl).1 (by decide)

/-- C10: a Reference whose amount is a Proportion with an absent value (the
remainder case) is not subject to the full-share omission: the link contains
the remainder-wording markup produced by render_proportion followed by one
separating space before the target output name. -/
theorem render_reference_remainder (ctx : RenderCtx) (r : Reference)
    (p : Proportion) (nm : SVS) (pre : String)
    (ha : r.amount = Amount.prop p) (hv : p.value = none)
    (hn : r.sub_recipe.output_names[r.output_index]? = some nm) :
    render_reference ctx r pre = Except.ok
      (t "a" (some (render_proportion ctx p ++ sp ++
          render_scaled_value_string ctx nm))
        [("href", "#" ++ (pre ++ stripHyphens (sanitizeName (nm.toStr ctx))))]) ∧
    render_proportion ctx p =
      t "span" (some (htmlEscape (p.remainder_wording ++ p.preposition)))
        [("class_", "rg-proportion-remainder")] := by
  have hne : pyOptNe p.value (PyNum.float 1) = true := by
    rw [hv]
    rfl
  constructor
  · simp [render_reference, ha, hne, generate_subrecipe_output_id, hn,
      Bind.bind, Except.bind, Pure.pure, Except.pure]
  · simp [render_proportion, hv]

/-- Witness for C10: the remainder reference to the sauce output renders
with the remainder markup and the separating space. -/
theorem render_reference_remainder_witness :
    render_reference ctxCup refRemainder "sub-recipe-" = Except.ok
      (t "a" (some (render_proportion ctxCup remainderShare ++ sp ++
          render_scaled_value_string ctxCup sauceName))
        [("href", "#" ++ ("sub-recipe-" ++
          stripHyphens (sanitizeName (sauceName.toStr ctxCup))))]) :=
  (render_reference_remainder ctxCup refRemainder remainderShare sauceName
    "sub-recipe-" rfl rfl rfl).1

/-- C8: a quantity whose unit is unknown to the conversion table is not an
error: the caught lookup failure falls back to the single native alternative
(the original value and unit, no conversions), rendered as the plain
without-conversions inline span followed by the escaped preposition. -/
theorem render_quantity_unknown_unit (ctx : RenderCtx) (q : Quantity)
    (unit : String) (hu : q.unit = some unit)
    (hc : ctx.conversions (pyLower unit) = none) :
    quantityAlternativeForms ctx.conversions q.value unit =
      Except.ok [(q.value, unit)] ∧
    render_quantity ctx q = Except.ok
      (t "span" (some (render_number ctx q.value ++
          htmlEscape q.value_unit_spacing ++ htmlEscape unit))
        [("class_", "rg-quantity-without-conversions rg-scaled-value")]
        ++ htmlEscape q.preposition) := by
  have h1 : quantityAlternativeForms ctx.conversions q.value unit =
      Except.ok [(q.value, unit)] := by
    simp [quantityAlternativeForms, hc]
  refine ⟨h1, ?_⟩
  simp [render_quantity, hu, h1, quantityFormString,
    Bind.bind, Except.bind, Pure.pure, Except.pure]

/-- Witness for C8: the quantity in the unknown unit "splodge" renders as
the single-form span with its preposition. -/
theorem render_quantity_unknown_unit_witness :
    render_quantity ctxNone unknownUnitQuantity = Except.ok
      (t "span" (some (render_number ctxNone (PyNum.int 2) ++
          htmlEscape sp ++ htmlEscape "splodge"))
        [("class_", "rg-quantity-without-conversions rg-scaled-value")]
        ++ htmlEscape " of ") :=
  (render_quantity_unknown_unit ctxNone unknownUnitQuantity "splodge" rfl
    rfl).2

/-- If the conversion pairs contain an exact (non-float) scale equal to 1,
the head of the sorted conversion list is an exact scale equal to 1: every
such pair's key starts (false, false), and the sorted head is bounded by it
in the lexicographic key order. -/
theorem sortConversions_head_exact_one (pairs : List (PyNum × String))
    (sn : PyNum × String) (hmem : sn ∈ pairs) (hf : sn.1.isFloat = false)
    (h1 : sn.1.toRat = 1) :
    ∃ s0 stail, sortConversions pairs = s0 :: stail ∧
      s0.1.isFloat = false ∧ s0.1.toRat = 1 := by
  have hmem2 : sn ∈ sortConversions pairs :=
    ((sortConversions_perm pairs).mem_iff).mpr hmem
  cases hs : sortConversions pairs with
  | nil =>
    rw [hs] at hmem2
    cases hmem2
  | cons s0 stail =>
    refine ⟨s0, stail, rfl, ?_⟩
    have hpe1 : sn.1.pyEq (PyNum.int 1) = true := by
      have ht : (PyNum.int 1).toRat = (1 : Rat) := by simp [PyNum.toRat]
      simp [PyNum.pyEq, ht, h1]
    have hk : convKey sn = (false, false, sn.2.data) := by
      simp [convKey, hpe1, hf]
    rw [hs] at hmem2
    have hsorted := sortConversions_sorted pairs
    rw [hs] at hsorted
    rcases List.mem_cons.mp hmem2 with he | hm
    · rw [← he]
      exact ⟨hf, h1⟩
    · have hle : convLe s0 sn = true :=
        (List.pairwise_cons.mp hsorted).1 sn hm
      rw [convLe, hk] at hle
      have hk0 : convKey s0 =
          (!(s0.1.pyEq (PyNum.int 1)), s0.1.isFloat, s0.2.data) := rfl
      rw [hk0] at hle
      cases hpe : s0.1.pyEq (PyNum.int 1) <;> rw [hpe] at hle <;>
        cases hf0 : s0.1.isFloat <;> rw [hf0] at hle <;>
        simp [keyLe] at hle
      refine ⟨rfl, ?_⟩
      have := of_decide_eq_true hpe
      simpa [PyNum.toRat] using this

/-- C9: given the spec's guarantee that a known unit's conversions include
the identity pair (an exact scale equal to 1), the internal sanity assertion
of render_quantity never fails: the first computed alternative compares
equal to the original value, the alternative list starts with the native
(value, unit) pair, and render_quantity returns a rendered string rather
than the fatal internal-consistency error. -/
theorem render_quantity_assert_safe (ctx : RenderCtx) (q : Quantity)
    (unit : String) (pairs : List (PyNum × String)) (hu : q.unit = some unit)
    (hp : ctx.conversions (pyLower unit) = some pairs)
    (hid : ∃ sn ∈ pairs, sn.1.isFloat = false ∧ sn.1.toRat = 1) :
    (∃ forms, quantityAlternativeForms ctx.conversions q.value unit =
        Except.ok forms ∧ forms.head? = some (q.value, unit)) ∧
    ∃ out, render_quantity ctx q = Except.ok out := by
  obtain ⟨sn, hmem, hf, h1⟩ := hid
  obtain ⟨s0, stail, hs, hf0, h10⟩ :=
    sortConversions_head_exact_one pairs sn hmem hf h1
  have hassert : (q.value.mul s0.1).pyEq q.value = true :=
    PyNum.mul_exact_one _ _ hf0 h10
  have hforms : quantityAlternativeForms ctx.conversions q.value unit =
      Except.ok ((q.value, unit) ::
        stail.map (fun p2 => (q.value.mul p2.1, p2.2))) := by
    simp [quantityAlternativeForms, hp, hs, hassert]
  refine ⟨⟨_, hforms, rfl⟩, ?_⟩
  simp only [render_quantity, hu, hforms, Bind.bind, Except.bind]
  split
  · exact ⟨_, rfl⟩
  · exact ⟨_, rfl⟩

/-- Witness for C9: the cup conversions contain the exact identity pair, so
rendering one cup succeeds and its first alternative is the native pair. -/
theorem render_quantity_assert_safe_witness :
    (∃ forms, quantityAlternativeForms ctxCup.conversions cupQuantity.value
        "cup" = Except.ok forms ∧
      forms.head? = some (cupQuantity.value, "cup")) ∧
    ∃ out, render_quantity ctxCup cupQuantity = Except.ok out :=
  render_quantity_assert_safe ctxCup cupQuantity "cup" cupPairs rfl
    (by decide) ⟨(PyNum.int 1, "cup"), by decide, rfl, by decide⟩

/-- C1 (amended): for a unit known to the table, the alternative forms
produced by render_quantity are the native (value, unit) pair first,
followed by the remaining conversions scaled by the value in sorted order,
the sort being a permutation of the table's pairs ordered by the key
(scale ≠ 1, scale is float, target name) — scale-1 conversions before other
exact ones, exact before approximate, alphabetical by target name as final
tie-break; on the spec's cup example the order is cup, tbsp, ml. -/
theorem render_quantity_ordering :
    (∀ (conv : String → Option (List (PyNum × String))) (value : PyNum)
      (unit : String) (pairs forms : List (PyNum × String)),
      conv (pyLower unit) = some pairs →
      quantityAlternativeForms conv value unit = Except.ok forms →
      ∃ sorted_pairs : List (PyNum × String),
        List.Perm sorted_pairs pairs ∧
        List.Pairwise (fun a b => convLe a b = true) sorted_pairs ∧
        forms = (value, unit) ::
          sorted_pairs.tail.map (fun sn => (value.mul sn.1, sn.2))) ∧
    quantityAlternativeForms cupConversions (PyNum.int 1) "cup" =
      Except.ok [(PyNum.int 1, "cup"), (PyNum.int 16, "tbsp"),
        (PyNum.float (mkRat 236588 1000), "ml")] := by
  constructor
  · intro conv value unit pairs forms hconv hok
    simp only [quantityAlternativeForms, hconv] at hok
    cases hs : sortConversions pairs with
    | nil =>
      rw [hs] at hok
      simp at hok
    | cons s0 stail =>
      rw [hs] at hok
      simp only [List.map_cons] at hok
      have hperm : (s0 :: stail).Perm pairs := by
        rw [← hs]
        exact sortConversions_perm pairs
      have hsorted : (s0 :: stail).Pairwise (fun a b => convLe a b = true) := by
        rw [← hs]
        exact sortConversions_sorted pairs
      split at hok
      · refine ⟨s0 :: stail, hperm, hsorted, ?_⟩
        simp only [Except.ok.injEq] at hok
        rw [← hok]
        rfl
      · exact Except.noConfusion hok
  · have hsc : sortConversions cupPairs = cupPairs :=
      List.mergeSort_of_sorted (by decide)
    have hconv : cupConversions (pyLower "cup") = some cupPairs := by decide
    have hm1 : (PyNum.int 1).mul (PyNum.int 1) = PyNum.int 1 := by
      simp [PyNum.mul]
    have hm16 : (PyNum.int 1).mul (PyNum.int 16) = PyNum.int 16 := by
      simp [PyNum.mul]
    have hml : (PyNum.int 1).mul (PyNum.float (mkRat 236588 1000)) =
        PyNum.float (mkRat 236588 1000) := by
      simp [PyNum.mul, PyNum.toRat, ratMul_eq]
    have hpe : (PyNum.int 1).pyEq (PyNum.int 1) = true := by
      simp [PyNum.pyEq]
    simp only [quantityAlternativeForms, hconv, hsc]
    simp only [cupPairs, List.map_cons, List.map_nil, hm1, hm16, hml, hpe,
      if_true]

/-- Witness for C1: the theorem applied to the cup example, whose forms are
cup then tbsp then ml. -/
theorem render_quantity_ordering_witness :
    ∃ sorted_pairs : List (PyNum × String), List.Perm sorted_pairs cupPairs ∧
      List.Pairwise (fun a b => convLe a b = true) sorted_pairs ∧
      [(PyNum.int 1, "cup"), (PyNum.int 16, "tbsp"),
        (PyNum.float (mkRat 236588 1000), "ml")] =
        (PyNum.int 1, "cup") ::
          sorted_pairs.tail.map (fun sn => ((PyNum.int 1).mul sn.1, sn.2)) :=
  render_quantity_ordering.1 cupConversions (PyNum.int 1) "cup" cupPairs _
    (by decide) render_quantity_ordering.2

/-- Counterexample to C1 as stated: with a conversion table holding a second
exact scale-1 conversion (a unit alias), the remaining alternatives are not
ordered by (exact before approximate, alphabetical tie-break): in the forms
below every remaining scale is exact (non-float), yet the remaining target
names run z before a, because the implementation's first sort criterion
puts scale-1 conversions ahead of alphabetically earlier exact ones. -/
theorem render_quantity_ordering_counterexample :
    ∃ forms, quantityAlternativeForms aliasConversions (PyNum.int 1) "u" =
        Except.ok forms ∧
      (∀ f ∈ forms.drop 1, f.1.isFloat = false) ∧
      (forms.drop 1).map (fun f => f.2) = ["z", "a"] ∧
      ¬ (forms.drop 1).Pairwise
          (fun a b : PyNum × String => charListLe a.2.data b.2.data = true) := by
  refine ⟨[(PyNum.int 1, "u"), (PyNum.int 1, "z"), (PyNum.int 2, "a")],
    ?_, by decide, by decide, ?_⟩
  · have hsc : sortConversions aliasPairs = aliasPairs :=
      List.mergeSort_of_sorted (by decide)
    have hconv : aliasConversions (pyLower "u") = some aliasPairs := by decide
    have hm1 : (PyNum.int 1).mul (PyNum.int 1) = PyNum.int 1 := by
      simp [PyNum.mul]
    have hm2 : (PyNum.int 1).mul (PyNum.int 2) = PyNum.int 2 := by
      simp [PyNum.mul]
    have hpe : (PyNum.int 1).pyEq (PyNum.int 1) = true := by
      simp [PyNum.pyEq]
    simp only [quantityAlternativeForms, hconv, hsc]
    simp only [aliasPairs, List.map_cons, List.map_nil, hm1, hm2, hpe,
      if_true]
  · intro hpw
    have h2 : charListLe ['z'] ['a'] = true := by simpa using hpw
    exact absurd h2 (by decide)

/-- A row renders the same once its span-continuation slots are removed. -/
theorem renderRow_filter_eq (ctx : RenderCtx) (pre : String)
    (row : List TableSlot) :
    renderRow ctx pre (row.filter isCellSlot) = renderRow ctx pre row := by
  unfold renderRow
  rw [rowCells_filter]

theorem mapM_except_map {α β γ : Type} (f : α → β) (g : β → Except String γ) :
    ∀ l : List α, (l.map f).mapM g = l.mapM (fun a => g (f a))
  | [] => rfl
  | a :: l => by
    rw [List.map_cons, List.mapM_cons, List.mapM_cons, mapM_except_map f g l]

theorem mapM_except_congr {α β : Type} (f g : α → Except String β) :
    ∀ l : List α, (∀ a ∈ l, f a = g a) → l.mapM f = l.mapM g
  | [], _ => rfl
  | a :: l, h => by
    rw [List.mapM_cons, List.mapM_cons, h a (List.mem_cons_self a l),
      mapM_except_congr f g l (fun b hb => h b (List.mem_cons_of_mem a hb))]

/-- C6: render_table walks the rows in order and, within each row, emits
markup only for the span-origin cells in column order: a row renders the
same as its origin-cells-only filtering, a successful row render yields
exactly one markup string per span-origin slot, and the whole table renders
identically when every span-continuation slot is removed beforehand. -/
theorem render_table_origin_cells :
    (∀ (ctx : RenderCtx) (pre : String) (row : List TableSlot),
      renderRow ctx pre row = renderRow ctx pre (row.filter isCellSlot)) ∧
    (∀ (ctx : RenderCtx) (pre : String) (row : List TableSlot)
      (ss : List String), renderRow ctx pre row = Except.ok ss →
      ss.length = row.countP isCellSlot) ∧
    (∀ (ctx : RenderCtx) (table : Table) (tableId : Option String)
      (pre : String),
      render_table ctx table tableId pre =
        render_table ctx ⟨table.cells.map (fun row => row.filter isCellSlot)⟩
          tableId pre) := by
  refine ⟨?_, ?_, ?_⟩
  · intro ctx pre row
    exact (renderRow_filter_eq ctx pre row).symm
  · intro ctx pre row ss h
    have hlen := mapM_except_length (fun c => render_cell ctx c pre)
      (rowCells row) ss h
    rw [hlen, rowCells_length]
  · intro ctx table tableId pre
    unfold render_table
    have hx : (table.cells.map (fun row => row.filter isCellSlot)).mapM
        (fun row_cells => do
          let cells ← renderRow ctx pre row_cells
          pure (t "tr" (some (String.intercalate nl cells)) [])) =
        table.cells.mapM (fun row_cells => do
          let cells ← renderRow ctx pre row_cells
          pure (t "tr" (some (String.intercalate nl cells)) [])) := by
      rw [mapM_except_map]
      apply mapM_except_congr
      intro a ha
      rw [renderRow_filter_eq]
    rw [hx]

/-- Witness for C6: the mixed row with a span-continuation placeholder
renders exactly two cell markups, one per span-origin slot. -/
theorem render_table_origin_cells_witness :
    ([t "td" (some "") [("class_", "rg-step rg-border-right-thick"),
        ("rowspan", "2")],
      t "td" (some "") [("class_", "rg-step")]] : List String).length =
      mixedRow.countP isCellSlot :=
  render_table_origin_cells.2.1 ctxCup "sub-recipe-" mixedRow
    [t "td" (some "") [("class_", "rg-step rg-border-right-thick"),
        ("rowspan", "2")],
      t "td" (some "") [("class_", "rg-step")]]
    (by decide)

/-- The border class of a normal edge never coincides with the border class
emitted for any edge with a non-normal style. -/
theorem borderClassFor_ne_normal (e1 e2 : String) (b2 : BorderType)
    (he1 : e1 = "left" ∨ e1 = "right" ∨ e1 = "top" ∨ e1 = "bottom")
    (he2 : e2 = "left" ∨ e2 = "right" ∨ e2 = "top" ∨ e2 = "bottom")
    (hb : b2 ≠ BorderType.normal) :
    borderClassFor e1 BorderType.normal ≠ borderClassFor e2 b2 := by
  rcases he1 with rfl | rfl | rfl | rfl <;>
    rcases he2 with rfl | rfl | rfl | rfl <;>
    cases b2 <;>
    first
      | exact absurd rfl hb
      | decide

/-- The edges enumerated by render_cell. -/
theorem edgeBorders_fst (cell : Cell) (e : String) (bt : BorderType)
    (h : (e, bt) ∈ edgeBorders cell) :
    e = "left" ∨ e = "right" ∨ e = "top" ∨ e = "bottom" := by
  simp only [edgeBorders, List.mem_cons, List.not_mem_nil, or_false] at h
  rcases h with h | h | h | h
  · exact Or.inl (congrArg Prod.fst h)
  · exact Or.inr (Or.inl (congrArg Prod.fst h))
  · exact Or.inr (Or.inr (Or.inl (congrArg Prod.fst h)))
  · exact Or.inr (Or.inr (Or.inr (congrArg Prod.fst h)))

/-- An edge's border class is emitted exactly when its style is not the
normal default. -/
theorem borderClasses_iff (cell : Cell) (e : String) (bt : BorderType)
    (hmem : (e, bt) ∈ edgeBorders cell) :
    (borderClassFor e bt ∈ borderClasses cell ↔ bt ≠ BorderType.normal) := by
  constructor
  · intro hin hbtn
    subst hbtn
    rw [borderClasses, List.mem_filterMap] at hin
    obtain ⟨eb, hebmem, hebeq⟩ := hin
    by_cases hne : eb.2 = BorderType.normal
    · simp [hne] at hebeq
    · simp only [hne, ne_eq, not_false_eq_true, if_true,
        Option.some.injEq] at hebeq
      exact borderClassFor_ne_normal e eb.1 eb.2
        (edgeBorders_fst cell e BorderType.normal hmem)
        (edgeBorders_fst cell eb.1 eb.2 (by simpa using hebmem)) hne
        hebeq.symm
  · intro hbtn
    rw [borderClasses, List.mem_filterMap]
    exact ⟨(e, bt), hmem, by simp [hbtn]⟩

/-- C7: render_cell emits a span attribute for a dimension exactly when
that dimension's span exceeds 1 (a span of 1 emits no attribute), emits an
edge-and-style border class for an edge exactly when that edge's style
differs from the normal default, and assembles the td element from the
semantic class, those border classes and those span attributes. -/
theorem render_cell_spans_and_borders (ctx : RenderCtx) (cell : Cell)
    (pre : String) (hrow : 1 ≤ cell.rows) (hcol : 1 ≤ cell.columns) :
    ((∃ v, ("rowspan", v) ∈ cellSpans cell) ↔ 1 < cell.rows) ∧
    ((∃ v, ("colspan", v) ∈ cellSpans cell) ↔ 1 < cell.columns) ∧
    (borderClassFor "left" cell.border_left ∈ borderClasses cell ↔
      cell.border_left ≠ BorderType.normal) ∧
    (borderClassFor "right" cell.border_right ∈ borderClasses cell ↔
      cell.border_right ≠ BorderType.normal) ∧
    (borderClassFor "top" cell.border_top ∈ borderClasses cell ↔
      cell.border_top ≠ BorderType.normal) ∧
    (borderClassFor "bottom" cell.border_bottom ∈ borderClasses cell ↔
      cell.border_bottom ≠ BorderType.normal) ∧
    (∀ cb, cellClassAndBody ctx cell pre = Except.ok cb →
      render_cell ctx cell pre = Except.ok
        (t "td" (some cb.2)
          ([("class_", String.intercalate sp (cb.1 :: borderClasses cell))]
            ++ cellSpans cell))) := by
  refine ⟨?_, ?_,
    borderClasses_iff cell "left" cell.border_left (by simp [edgeBorders]),
    borderClasses_iff cell "right" cell.border_right (by simp [edgeBorders]),
    borderClasses_iff cell "top" cell.border_top (by simp [edgeBorders]),
    borderClasses_iff cell "bottom" cell.border_bottom (by simp [edgeBorders]),
    ?_⟩
  · by_cases h1 : cell.rows = 1 <;> by_cases h2 : cell.columns = 1 <;>
      simp_all [cellSpans] <;> omega
  · by_cases h1 : cell.rows = 1 <;> by_cases h2 : cell.columns = 1 <;>
      simp_all [cellSpans] <;> omega
  · intro cb hcb
    simp [render_cell, hcb, Bind.bind, Except.bind, Pure.pure, Except.pure]

/-- Witness for C7: the two-row-span step cell emits a rowspan attribute
and no colspan attribute, its thick right border contributes its class, and
its normal borders contribute none. -/
theorem render_cell_spans_and_borders_witness :
    ((∃ v, ("rowspan", v) ∈ cellSpans stepCell) ↔ 1 < stepCell.rows) ∧
    ((∃ v, ("colspan", v) ∈ cellSpans stepCell) ↔ 1 < stepCell.columns) :=
  ⟨(render_cell_spans_and_borders ctxCup stepCell "sub-recipe-" (by decide)
      (by decide)).1,
    (render_cell_spans_and_borders ctxCup stepCell "sub-recipe-" (by decide)
      (by decide)).2.1⟩

end RecipeGrid
